import Mathlib

/-!
Shallow embedding of `src/project2/dining_philosophers.py` (class
`DiningPhilosophers`), the synchronization monitor arbitrating N actors
("philosophers") around a ring of N shared resources ("forks").

Python phase names map directly: `THINKING` = the spec's IDLE phase,
`HUNGRY` = WAITING, `EATING` = ACTIVE.

All monitor methods run under the single mutex `self.mutex`, so each method
body is embedded as a pure state-to-state function; the interleaving of
threads is captured by the `Step` relation below, which fires whole
critical sections one at a time (exactly the atomicity the lock provides).
The condition variables carry no data; a `notify` is recorded as the
Boolean component of `testS`.
-/

/-- The three per-philosopher states stored in `self.state`. -/
inductive Phase where
  | THINKING
  | HUNGRY
  | EATING
deriving DecidableEq, Repr

/-- The mutable state of a `DiningPhilosophers` instance:
`num_philosophers`, the `state` list and the `forks` ownership-count list.
The mutex and condition variables are synchronization primitives, not data,
and are accounted for by the atomic-step semantics. -/
structure DiningPhilosophers where
  num_philosophers : Nat
  state : List Phase
  forks : List Nat
deriving DecidableEq, Repr

namespace DiningPhilosophers

/-- `__init__(self, num_philosophers=5)`: sets every entry of `state` to
`THINKING` and every entry of `forks` to `0`.  The constructor body
contains no validation and no `raise`. -/
def init (num_philosophers : Nat := 5) : DiningPhilosophers :=
  { num_philosophers := num_philosophers
    state := List.replicate num_philosophers Phase.THINKING
    forks := List.replicate num_philosophers 0 }

/-- Construction viewed as a fallible operation (Python constructors may
raise).  `__init__` has no `raise` path for any argument, so it always
returns `ok`. -/
def initE (n : Nat) : Except String DiningPhilosophers :=
  Except.ok (init n)

/-- `self.state[i]`, read as a total function (all accesses made by the
program are in range; `THINKING` is the out-of-range placeholder). -/
def phase (s : DiningPhilosophers) (i : Nat) : Phase :=
  s.state.getD i Phase.THINKING

/-- `left_fork(self, philosopher_num)`: returns `philosopher_num`. -/
def left_fork (_s : DiningPhilosophers) (philosopher_num : Nat) : Nat :=
  philosopher_num

/-- `right_fork(self, philosopher_num)`:
returns `(philosopher_num + 1) % self.num_philosophers`. -/
def right_fork (s : DiningPhilosophers) (philosopher_num : Nat) : Nat :=
  (philosopher_num + 1) % s.num_philosophers

/-- `count_forks(self, fork_num)`: counts `state[fork_num]` if `EATING`
and `state[(fork_num - 1) % N]` if `EATING`.  Python's `%` on a negative
argument yields the nonnegative residue, so `(fork_num - 1) % N` is
embedded as `(fork_num + N - 1) % N`. -/
def count_forks (s : DiningPhilosophers) (fork_num : Nat) : Nat :=
  let count0 : Nat := 0
  let count1 := if s.phase fork_num = Phase.EATING then count0 + 1 else count0
  let right_phil := (fork_num + s.num_philosophers - 1) % s.num_philosophers
  if s.phase right_phil = Phase.EATING then count1 + 1 else count1

/-- The guard of `test(self, philosopher_num)`, exactly as the source
writes it: `state[p] == HUNGRY and state[left_fork(p)] != EATING and
state[right_fork(p)] != EATING`.  Note that `left_fork(p)` is `p`
itself, so the second conjunct reads the requesting philosopher, not the
left neighbour `(p-1) % N`. -/
def canEat (s : DiningPhilosophers) (p : Nat) : Prop :=
  s.phase p = Phase.HUNGRY ∧ s.phase (s.left_fork p) ≠ Phase.EATING ∧
    s.phase (s.right_fork p) ≠ Phase.EATING

instance (s : DiningPhilosophers) (p : Nat) : Decidable (canEat s p) := by
  unfold canEat
  infer_instance

/-- `test(self, philosopher_num)` together with whether
`self.condition[philosopher_num].notify()` was called (the Boolean).
On success it sets `state[p] = EATING` and refreshes
`forks[left_fork(p)]` and `forks[right_fork(p)]` from `count_forks` on the
updated state; otherwise it does nothing. -/
def testS (s : DiningPhilosophers) (p : Nat) : DiningPhilosophers × Bool :=
  if canEat s p then
    let s1 := { s with state := s.state.set p Phase.EATING }
    let s2 := { s1 with
      forks := s1.forks.set (s.left_fork p) (s1.count_forks (s.left_fork p)) }
    let s3 := { s2 with
      forks := s2.forks.set (s.right_fork p) (s2.count_forks (s.right_fork p)) }
    (s3, true)
  else
    (s, false)

/-- The state effect of `test(self, philosopher_num)`. -/
def test (s : DiningPhilosophers) (p : Nat) : DiningPhilosophers :=
  (testS s p).1

/-- `pickup_forks(self, philosopher_num)`, the acquire entry: under the
mutex, set `state[p] = HUNGRY` and run `test(p)`.  If the guard fails the
thread then blocks on its condition (`state[p]` still `HUNGRY`); the later
wake-up happens inside some other thread's `test`, which is already part of
that thread's step, so the blocked thread itself makes no further state
change. -/
def pickup_forks (s : DiningPhilosophers) (p : Nat) : DiningPhilosophers :=
  test { s with state := s.state.set p Phase.HUNGRY } p

/-- `return_forks(self, philosopher_num)`: under the mutex, set
`state[p] = THINKING`, refresh `forks[left_fork(p)]` and
`forks[right_fork(p)]`, then run `test(left_fork(p))` and
`test(right_fork(p))` — i.e. `test(p)` and `test((p+1) % N)`; the left
neighbour `(p-1) % N` is never re-tested.  No precondition is checked. -/
def return_forks (s : DiningPhilosophers) (p : Nat) : DiningPhilosophers :=
  let s1 := { s with state := s.state.set p Phase.THINKING }
  let s2 := { s1 with
    forks := s1.forks.set (s1.left_fork p) (s1.count_forks (s1.left_fork p)) }
  let s3 := { s2 with
    forks := s2.forks.set (s1.right_fork p) (s2.count_forks (s1.right_fork p)) }
  let s4 := test s3 (s1.left_fork p)
  test s4 (s1.right_fork p)

/-- One atomic critical section executed by some philosopher thread
(`Philosopher.run` alternates `pickup_forks` and `return_forks`): a thread
calls `pickup_forks(i)` only from its thinking phase and `return_forks(i)`
only after its `pickup_forks` returned, i.e. while `state[i] = EATING`. -/
inductive Step : DiningPhilosophers → DiningPhilosophers → Prop where
  | pickup (s : DiningPhilosophers) (i : Nat) (hi : i < s.num_philosophers)
      (hth : s.phase i = Phase.THINKING) : Step s (s.pickup_forks i)
  | ret (s : DiningPhilosophers) (i : Nat) (hi : i < s.num_philosophers)
      (he : s.phase i = Phase.EATING) : Step s (s.return_forks i)

/-- States reachable by some interleaving of complete critical sections. -/
abbrev Reachable (s t : DiningPhilosophers) : Prop :=
  Relation.ReflTransGen Step s t

/-- One complete `pickup_forks(i)`/`return_forks(i)` cycle of actor `i`
(meaningful when the pickup is granted immediately, as in the solo runs of
the idempotent re-entry property). -/
def cycle (s : DiningPhilosophers) (i : Nat) : DiningPhilosophers :=
  return_forks (pickup_forks s i) i

/-- `k` consecutive `acquire → release` cycles of actor `i` starting from a
freshly constructed monitor with `n` actors. -/
def cycleIter (n i : Nat) : Nat → DiningPhilosophers
  | 0 => init n
  | k + 1 => cycle (cycleIter n i k) i

/-- The holding count of resource `r`, written from the spec's words:
resource `r` is held by actor `r` if `phase[r] = ACTIVE` and by actor
`(r-1) mod N` if that actor is `ACTIVE`; the count is the number of
`ACTIVE` actors among these two adjacent actors. -/
def countHoldersSpec (s : DiningPhilosophers) (r : Nat) : Nat :=
  (({r, (r + s.num_philosophers - 1) % s.num_philosophers} : Finset Nat).filter
    (fun a => s.phase a = Phase.EATING)).card

end DiningPhilosophers

/-! ### Basic list-access lemmas -/

theorem getD_set_of_ne {α : Type} (l : List α) (i j : Nat) (a d : α) (h : i ≠ j) :
    (l.set i a).getD j d = l.getD j d := by
  simp [List.getD_eq_getElem?_getD, List.getElem?_set_ne h]

theorem getD_set_self_of_lt {α : Type} (l : List α) (i : Nat) (a d : α) (h : i < l.length) :
    (l.set i a).getD i d = a := by
  simp [List.getD_eq_getElem?_getD, List.getElem?_set_self h]

theorem getD_set_self_same {α : Type} (l : List α) (i : Nat) (a : α) :
    (l.set i a).getD i a = a := by
  rcases Nat.lt_or_ge i l.length with h | h
  · exact getD_set_self_of_lt l i a a h
  · rw [List.set_eq_of_length_le h]
    simp [List.getD_eq_getElem?_getD, List.getElem?_eq_none h]

theorem getD_replicate_self {α : Type} (n i : Nat) (a : α) :
    (List.replicate n a).getD i a = a := by
  simp [List.getD_eq_getElem?_getD, List.getElem?_replicate]
  split <;> simp

/-! ### Modular-arithmetic facts about the ring topology -/

theorem succ_mod_ne (n i : Nat) (hn : 2 ≤ n) (hi : i < n) : (i + 1) % n ≠ i := by
  intro h
  rcases Nat.lt_or_ge (i + 1) n with h1 | h1
  · rw [Nat.mod_eq_of_lt h1] at h
    omega
  · have h2 : i + 1 = n := by omega
    rw [h2, Nat.mod_self] at h
    omega

theorem prev_mod_ne (n i : Nat) (hn : 2 ≤ n) (hi : i < n) : (i + n - 1) % n ≠ i := by
  intro h
  rcases i with _ | i'
  · rw [Nat.mod_eq_of_lt (by omega)] at h
    omega
  · have h2 : i' + 1 + n - 1 = i' + n := by omega
    rw [h2, Nat.add_mod_right, Nat.mod_eq_of_lt (by omega)] at h
    omega

namespace DiningPhilosophers

/-! ### Characterization of `test` -/

theorem testS_pos (s : DiningPhilosophers) (p : Nat) (h : canEat s p) :
    (testS s p).2 = true := by
  simp only [testS]
  rw [if_pos h]

theorem testS_neg (s : DiningPhilosophers) (p : Nat) (h : ¬ canEat s p) :
    testS s p = (s, false) := by
  simp only [testS]
  rw [if_neg h]

theorem test_state_eq (s : DiningPhilosophers) (p : Nat) :
    (test s p).state =
      if canEat s p then s.state.set p Phase.EATING else s.state := by
  simp only [test, testS]
  split <;> rfl

theorem test_num (s : DiningPhilosophers) (p : Nat) :
    (test s p).num_philosophers = s.num_philosophers := by
  simp only [test, testS]
  split <;> rfl

theorem test_length (s : DiningPhilosophers) (p : Nat) :
    (test s p).state.length = s.state.length := by
  rw [test_state_eq]
  split <;> simp

theorem test_phase_keep (s : DiningPhilosophers) (p j : Nat)
    (h : j ≠ p ∨ s.phase p ≠ Phase.HUNGRY) :
    (test s p).phase j = s.phase j := by
  unfold phase
  rw [test_state_eq]
  split
  case isTrue hG =>
    rcases h with h | h
    · exact getD_set_of_ne _ _ _ _ _ (Ne.symm h)
    · exact absurd hG.1 h
  case isFalse => rfl

theorem test_phase_pos (s : DiningPhilosophers) (p : Nat) (hG : canEat s p)
    (hp : p < s.state.length) : (test s p).phase p = Phase.EATING := by
  unfold phase
  rw [test_state_eq, if_pos hG]
  exact getD_set_self_of_lt _ _ _ _ hp

/-- `test` reads only `state` and `num_philosophers`, so its effect on
`state` is unchanged by the `forks` bookkeeping. -/
theorem test_state_congr (t t' : DiningPhilosophers) (x : Nat)
    (ht : t.state = t'.state) (hn : t.num_philosophers = t'.num_philosophers) :
    (test t x).state = (test t' x).state := by
  have hg : canEat t x ↔ canEat t' x := by
    unfold canEat phase left_fork right_fork
    rw [ht, hn]
  rw [test_state_eq, test_state_eq, ht]
  by_cases h : canEat t' x
  · rw [if_pos (hg.mpr h), if_pos h]
  · rw [if_neg (fun hh => h (hg.mp hh)), if_neg h]

/-! ### Characterization of `pickup_forks` and `return_forks` -/

theorem pickup_num (s : DiningPhilosophers) (p : Nat) :
    (pickup_forks s p).num_philosophers = s.num_philosophers := by
  simp only [pickup_forks, test_num]

theorem pickup_length (s : DiningPhilosophers) (p : Nat) :
    (pickup_forks s p).state.length = s.state.length := by
  simp only [pickup_forks]
  rw [test_length]
  simp

theorem return_num (s : DiningPhilosophers) (p : Nat) :
    (return_forks s p).num_philosophers = s.num_philosophers := by
  simp only [return_forks, left_fork, right_fork]
  rw [test_num, test_num]

theorem return_length (s : DiningPhilosophers) (p : Nat) :
    (return_forks s p).state.length = s.state.length := by
  simp only [return_forks, left_fork, right_fork]
  rw [test_length, test_length]
  simp

/-- The phase content of `return_forks(p)`, with the `forks` refreshes
stripped: set `state[p] = THINKING`, then `test(p)`, then
`test((p+1) % N)`. -/
theorem return_phase_view (s : DiningPhilosophers) (p j : Nat) :
    (return_forks s p).phase j =
      (test (test { s with state := s.state.set p Phase.THINKING } p)
        ((p + 1) % s.num_philosophers)).phase j := by
  simp only [return_forks, left_fork, right_fork]
  unfold phase
  refine congrArg (fun l : List Phase => l.getD j Phase.THINKING) ?hst
  apply test_state_congr
  · apply test_state_congr
    · rfl
    · rfl
  · rw [test_num, test_num]

/-- A philosopher whose phase is already `THINKING` is untouched by any
`test`. -/
theorem test_phase_thinking_keep (t : DiningPhilosophers) (x j : Nat)
    (h : t.phase j = Phase.THINKING) : (test t x).phase j = t.phase j := by
  by_cases hx : j = x
  · subst hx
    exact test_phase_keep _ _ _ (Or.inr (by rw [h]; simp))
  · exact test_phase_keep _ _ _ (Or.inl hx)

/-- `return_forks(p)` always leaves `state[p] = THINKING`: it writes
`THINKING` and neither re-test can flip `p` back (a `THINKING` actor
fails the `HUNGRY` guard). -/
theorem return_forks_phase_self (s : DiningPhilosophers) (p : Nat) :
    (return_forks s p).phase p = Phase.THINKING := by
  rw [return_phase_view]
  have h1 : ({ s with state := s.state.set p Phase.THINKING } :
      DiningPhilosophers).phase p = Phase.THINKING := getD_set_self_same _ _ _
  have h2 := test_phase_thinking_keep
    { s with state := s.state.set p Phase.THINKING } p p h1
  rw [test_phase_thinking_keep _ _ _ (h2.trans h1), h2, h1]

/-- Frame property of `return_forks(p)` on phases: only positions `p` and
`(p+1) % N` can change. -/
theorem return_forks_phase_other (s : DiningPhilosophers) (p j : Nat)
    (hjp : j ≠ p) (hjr : j ≠ (p + 1) % s.num_philosophers) :
    (return_forks s p).phase j = s.phase j := by
  rw [return_phase_view,
    test_phase_keep _ _ _ (Or.inl hjr), test_phase_keep _ _ _ (Or.inl hjp)]
  exact getD_set_of_ne _ _ _ _ _ (Ne.symm hjp)

/-- If `j ≠ p` and actor `j` is not `HUNGRY`, `return_forks(p)` cannot
change actor `j`'s phase (a `test` can only grant a `HUNGRY` actor). -/
theorem return_forks_phase_not_hungry (s : DiningPhilosophers) (p j : Nat)
    (hjp : j ≠ p) (hnh : s.phase j ≠ Phase.HUNGRY) :
    (return_forks s p).phase j = s.phase j := by
  rw [return_phase_view]
  have h1 : ({ s with state := s.state.set p Phase.THINKING } :
      DiningPhilosophers).phase j = s.phase j :=
    getD_set_of_ne _ _ _ _ _ (Ne.symm hjp)
  have h2 : (test { s with state := s.state.set p Phase.THINKING } p).phase j
      = s.phase j := by
    rw [test_phase_keep _ _ _ (Or.inl hjp)]
    exact h1
  by_cases hjr : j = (p + 1) % s.num_philosophers
  · rw [← hjr]
    rw [test_phase_keep _ _ _ (Or.inr (by rw [h2]; exact hnh))]
    exact h2
  · rw [test_phase_keep _ _ _ (Or.inl hjr)]
    exact h2

/-! ### Preservation along `Step` and `Reachable` -/

theorem step_num {s t : DiningPhilosophers} (h : Step s t) :
    t.num_philosophers = s.num_philosophers := by
  cases h with
  | pickup i hi hth => exact pickup_num s i
  | ret i hi he => exact return_num s i

theorem step_length {s t : DiningPhilosophers} (h : Step s t) :
    t.state.length = s.state.length := by
  cases h with
  | pickup i hi hth => exact pickup_length s i
  | ret i hi he => exact return_length s i

theorem reach_num {s t : DiningPhilosophers} (h : Reachable s t) :
    t.num_philosophers = s.num_philosophers := by
  induction h with
  | refl => rfl
  | tail h1 h2 ih => rw [step_num h2, ih]

theorem reach_length {s t : DiningPhilosophers} (h : Reachable s t) :
    t.state.length = s.state.length := by
  induction h with
  | refl => rfl
  | tail h1 h2 ih => rw [step_length h2, ih]

theorem phase_init (n j : Nat) : (init n).phase j = Phase.THINKING := by
  unfold init phase
  exact getD_replicate_self n j Phase.THINKING

/-! ### Claim theorems -/

/-- Claim C1 is violated by the code: from the all-IDLE initial state with
`N = 3`, the interleaving `pickup_forks(0); pickup_forks(1)` reaches a
state in which the adjacent actors 0 and 1 are both ACTIVE.  `test(1)`
checks `state[left_fork(1)] = state[1]` (the requester itself) instead of
the left neighbour `state[0]`, so it grants actor 1 while actor 0 eats. -/
theorem claim_C1_mutual_exclusion_violated :
    Reachable (init 3) (pickup_forks (pickup_forks (init 3) 0) 1) ∧
    (pickup_forks (pickup_forks (init 3) 0) 1).phase 0 = Phase.EATING ∧
    (pickup_forks (pickup_forks (init 3) 0) 1).phase 1 = Phase.EATING := by
  refine ⟨?_, by decide, by decide⟩
  exact Relation.ReflTransGen.tail
    (Relation.ReflTransGen.single (Step.pickup (init 3) 0 (by decide) (by decide)))
    (Step.pickup (pickup_forks (init 3) 0) 1 (by decide) (by decide))

/-- Claim C2 (confirmed): `test(i)` sets `phase[i]` to ACTIVE (`EATING`)
and signals actor `i`'s condition iff `phase[i] = WAITING (HUNGRY)`,
`phase[left(i)] ≠ ACTIVE` and `phase[right(i)] ≠ ACTIVE`, where
`left(i) = i` and `right(i) = (i+1) mod N`; otherwise it leaves the whole
state unchanged and does not signal. -/
theorem claim_C2_test_grant_iff (s : DiningPhilosophers) (p : Nat)
    (hp : p < s.num_philosophers) (hlen : s.state.length = s.num_philosophers) :
    (((test s p).phase p = Phase.EATING ∧ (testS s p).2 = true) ↔
      (s.phase p = Phase.HUNGRY ∧ s.phase (s.left_fork p) ≠ Phase.EATING ∧
        s.phase (s.right_fork p) ≠ Phase.EATING)) ∧
    (¬(s.phase p = Phase.HUNGRY ∧ s.phase (s.left_fork p) ≠ Phase.EATING ∧
        s.phase (s.right_fork p) ≠ Phase.EATING) → testS s p = (s, false)) := by
  by_cases hG : canEat s p
  · refine ⟨?_, fun hn => absurd hG hn⟩
    constructor
    · intro _
      exact hG
    · intro _
      exact ⟨test_phase_pos s p hG (hlen ▸ hp), testS_pos s p hG⟩
  · refine ⟨?_, fun _ => testS_neg s p hG⟩
    constructor
    · intro h
      have h2 := testS_neg s p hG
      exact absurd (h2 ▸ h.2) (by simp)
    · intro h
      exact absurd h hG

/-- Witness for claim C2 at a concrete grantable input:
`N = 2`, `state = [HUNGRY, THINKING]`, `p = 0`. -/
theorem claim_C2_test_grant_iff_witness :
    (0 < (⟨2, [Phase.HUNGRY, Phase.THINKING], [0, 0]⟩ :
        DiningPhilosophers).num_philosophers) ∧
    ((((test ⟨2, [Phase.HUNGRY, Phase.THINKING], [0, 0]⟩ 0).phase 0 = Phase.EATING ∧
        (testS ⟨2, [Phase.HUNGRY, Phase.THINKING], [0, 0]⟩ 0).2 = true) ↔
      ((⟨2, [Phase.HUNGRY, Phase.THINKING], [0, 0]⟩ :
          DiningPhilosophers).phase 0 = Phase.HUNGRY ∧
        (⟨2, [Phase.HUNGRY, Phase.THINKING], [0, 0]⟩ : DiningPhilosophers).phase
            ((⟨2, [Phase.HUNGRY, Phase.THINKING], [0, 0]⟩ :
              DiningPhilosophers).left_fork 0) ≠ Phase.EATING ∧
        (⟨2, [Phase.HUNGRY, Phase.THINKING], [0, 0]⟩ : DiningPhilosophers).phase
            ((⟨2, [Phase.HUNGRY, Phase.THINKING], [0, 0]⟩ :
              DiningPhilosophers).right_fork 0) ≠ Phase.EATING)) ∧
    (¬((⟨2, [Phase.HUNGRY, Phase.THINKING], [0, 0]⟩ :
          DiningPhilosophers).phase 0 = Phase.HUNGRY ∧
        (⟨2, [Phase.HUNGRY, Phase.THINKING], [0, 0]⟩ : DiningPhilosophers).phase
            ((⟨2, [Phase.HUNGRY, Phase.THINKING], [0, 0]⟩ :
              DiningPhilosophers).left_fork 0) ≠ Phase.EATING ∧
        (⟨2, [Phase.HUNGRY, Phase.THINKING], [0, 0]⟩ : DiningPhilosophers).phase
            ((⟨2, [Phase.HUNGRY, Phase.THINKING], [0, 0]⟩ :
              DiningPhilosophers).right_fork 0) ≠ Phase.EATING) →
      testS ⟨2, [Phase.HUNGRY, Phase.THINKING], [0, 0]⟩ 0 =
        (⟨2, [Phase.HUNGRY, Phase.THINKING], [0, 0]⟩, false))) :=
  ⟨by decide,
    claim_C2_test_grant_iff ⟨2, [Phase.HUNGRY, Phase.THINKING], [0, 0]⟩ 0
      (by decide) (by decide)⟩

/-- Claim C3 is violated by the code: in the reachable state where actor 0
is ACTIVE (`pickup_forks(0)` from `init 3`), `pickup_forks(1)` returns with
`phase[1] = ACTIVE` even though actor 1's neighbour `(1-1) mod 3 = 0` is
ACTIVE at that moment — the monitor never verified the left neighbour. -/
theorem claim_C3_acquire_grants_despite_active_neighbor :
    Reachable (init 3) (pickup_forks (init 3) 0) ∧
    (pickup_forks (init 3) 0).phase ((1 + 3 - 1) % 3) = Phase.EATING ∧
    (pickup_forks (pickup_forks (init 3) 0) 1).phase 1 = Phase.EATING ∧
    (pickup_forks (pickup_forks (init 3) 0) 1).phase ((1 + 3 - 1) % 3) =
      Phase.EATING := by
  exact ⟨Relation.ReflTransGen.single (Step.pickup (init 3) 0 (by decide) (by decide)),
    by decide, by decide, by decide⟩

/-- Counterexample to claim C4: with `N = 2` and `phase[0] = IDLE`
(not ACTIVE), `return_forks(0)` signals no fault and does not leave the
phase vector unchanged: it grants the WAITING actor 1. -/
theorem claim_C4_counterexample :
    (⟨2, [Phase.THINKING, Phase.HUNGRY], [0, 0]⟩ :
        DiningPhilosophers).phase 0 ≠ Phase.EATING ∧
    (return_forks ⟨2, [Phase.THINKING, Phase.HUNGRY], [0, 0]⟩ 0).state ≠
      (⟨2, [Phase.THINKING, Phase.HUNGRY], [0, 0]⟩ :
        DiningPhilosophers).state ∧
    (return_forks ⟨2, [Phase.THINKING, Phase.HUNGRY], [0, 0]⟩ 0).phase 1 =
      Phase.EATING := by
  decide

/-- Claim C4 as amended: `return_forks(i)` performs no misuse check.  When
`phase[i] ≠ ACTIVE` it still completes normally, sets `phase[i] = IDLE`,
and re-runs the grant check, which can change only `phase[(i+1) mod N]`;
every other actor keeps its phase. -/
theorem claim_C4_release_misuse_no_fault (s : DiningPhilosophers) (i : Nat)
    (hne : s.phase i ≠ Phase.EATING) :
    (return_forks s i).phase i = Phase.THINKING ∧
    ∀ j, j ≠ i → j ≠ (i + 1) % s.num_philosophers →
      (return_forks s i).phase j = s.phase j :=
  ⟨return_forks_phase_self s i,
    fun j hj hjr => return_forks_phase_other s i j hj hjr⟩

/-- Witness for the amended claim C4 at `N = 2`,
`state = [THINKING, HUNGRY]`, `i = 0`. -/
theorem claim_C4_release_misuse_no_fault_witness :
    (⟨2, [Phase.THINKING, Phase.HUNGRY], [0, 0]⟩ :
        DiningPhilosophers).phase 0 ≠ Phase.EATING ∧
    ((return_forks ⟨2, [Phase.THINKING, Phase.HUNGRY], [0, 0]⟩ 0).phase 0 =
        Phase.THINKING ∧
      ∀ j, j ≠ 0 →
        j ≠ (0 + 1) % (⟨2, [Phase.THINKING, Phase.HUNGRY], [0, 0]⟩ :
          DiningPhilosophers).num_philosophers →
        (return_forks ⟨2, [Phase.THINKING, Phase.HUNGRY], [0, 0]⟩ 0).phase j =
          (⟨2, [Phase.THINKING, Phase.HUNGRY], [0, 0]⟩ :
            DiningPhilosophers).phase j) :=
  ⟨by decide, claim_C4_release_misuse_no_fault _ 0 (by decide)⟩

/-- Counterexample to claim C5: constructing with `N = 0` and with `N = 1`
does not fail — `__init__` checks nothing and always produces an
instance. -/
theorem claim_C5_counterexample :
    initE 0 = Except.ok (init 0) ∧ initE 1 = Except.ok (init 1) :=
  ⟨rfl, rfl⟩

/-- Claim C5 as amended: construction never fails.  For every `n`
(including 0 and 1) `initE n` returns a usable instance whose size is `n`
and whose phases are all IDLE; in particular `N = 5` succeeds with all 5
phases IDLE. -/
theorem claim_C5_construction_never_fails (n : Nat) :
    initE n = Except.ok (init n) ∧ (init n).num_philosophers = n ∧
    ∀ j, j < n → (init n).phase j = Phase.THINKING :=
  ⟨rfl, rfl, fun j _ => phase_init n j⟩

/-- Witness for the amended claim C5 at `n = 5`. -/
theorem claim_C5_construction_never_fails_witness :
    initE 5 = Except.ok (init 5) ∧ (init 5).num_philosophers = 5 ∧
    ∀ j, j < 5 → (init 5).phase j = Phase.THINKING :=
  claim_C5_construction_never_fails 5

/-- Claim C7 (confirmed): with `N = 3`, actor 0 ACTIVE and actors 1, 2 both
WAITING, `return_forks(0)` makes exactly one of actors 1 and 2 ACTIVE
(here: actor 1, granted by `test(right_fork(0)) = test(1)`; actor 2 stays
WAITING). -/
theorem claim_C7_grant_cascade_exactly_one :
    (⟨3, [Phase.EATING, Phase.HUNGRY, Phase.HUNGRY], [1, 1, 0]⟩ :
        DiningPhilosophers).phase 0 = Phase.EATING ∧
    (⟨3, [Phase.EATING, Phase.HUNGRY, Phase.HUNGRY], [1, 1, 0]⟩ :
        DiningPhilosophers).phase 1 = Phase.HUNGRY ∧
    (⟨3, [Phase.EATING, Phase.HUNGRY, Phase.HUNGRY], [1, 1, 0]⟩ :
        DiningPhilosophers).phase 2 = Phase.HUNGRY ∧
    (((return_forks ⟨3, [Phase.EATING, Phase.HUNGRY, Phase.HUNGRY], [1, 1, 0]⟩
          0).phase 1 = Phase.EATING ∧
      (return_forks ⟨3, [Phase.EATING, Phase.HUNGRY, Phase.HUNGRY], [1, 1, 0]⟩
          0).phase 2 ≠ Phase.EATING) ∨
    ((return_forks ⟨3, [Phase.EATING, Phase.HUNGRY, Phase.HUNGRY], [1, 1, 0]⟩
          0).phase 1 ≠ Phase.EATING ∧
      (return_forks ⟨3, [Phase.EATING, Phase.HUNGRY, Phase.HUNGRY], [1, 1, 0]⟩
          0).phase 2 = Phase.EATING)) := by
  decide

/-- Claim C10 (confirmed): `return_forks(i)` can change the phases of at
most actor `i` and actor `(i+1) mod N`; every other actor — in particular
the left neighbour `(i-1) mod N` whenever it is distinct from those two —
keeps its phase, so a release never wakes the releasing actor's left
neighbour. -/
theorem claim_C10_release_frame (s : DiningPhilosophers) (i j : Nat)
    (hji : j ≠ i) (hjr : j ≠ (i + 1) % s.num_philosophers) :
    (return_forks s i).phase j = s.phase j :=
  return_forks_phase_other s i j hji hjr

/-- Claim C6 (confirmed): for every `N ≥ 2` the global-stall state is
unreachable — no interleaving of complete `pickup_forks`/`return_forks`
critical sections from the all-IDLE initial state produces a state in
which every actor is WAITING.  (A `pickup_forks(i)` that fails its own
grant check requires `phase[(i+1) mod N] = ACTIVE` at that instant, and a
`return_forks` always leaves its caller IDLE, so an all-WAITING snapshot
can never be produced.) -/
theorem claim_C6_no_global_stall (n : Nat) (hn : 2 ≤ n)
    (s : DiningPhilosophers) (hr : Reachable (init n) s) :
    ¬ (∀ i, i < n → s.phase i = Phase.HUNGRY) := by
  induction hr with
  | refl =>
    intro hall
    have h0 := hall 0 (by omega)
    rw [phase_init] at h0
    exact absurd h0 (by decide)
  | @tail b c h1 h2 ih =>
    intro hall
    have hbn : b.num_philosophers = n := reach_num h1
    have hbl : b.state.length = n := (reach_length h1).trans (by simp [init])
    cases h2 with
    | pickup i hi hth =>
      rw [hbn] at hi
      by_cases hG : canEat { b with state := b.state.set i Phase.HUNGRY } i
      · have he : (pickup_forks b i).phase i = Phase.EATING := by
          unfold pickup_forks
          exact test_phase_pos _ i hG (by simpa [hbl] using hi)
        have hh := hall i hi
        rw [he] at hh
        exact absurd hh (by decide)
      · have heq : pickup_forks b i =
            { b with state := b.state.set i Phase.HUNGRY } := by
          unfold pickup_forks test
          rw [testS_neg _ _ hG]
        have hH : ({ b with state := b.state.set i Phase.HUNGRY } :
            DiningPhilosophers).phase i = Phase.HUNGRY :=
          getD_set_self_of_lt _ _ _ _ (by rw [hbl]; exact hi)
        unfold canEat at hG
        push_neg at hG
        have hE := hG hH (by simp only [left_fork]; rw [hH]; simp)
        have hrn : ({ b with state := b.state.set i Phase.HUNGRY } :
            DiningPhilosophers).right_fork i = (i + 1) % n := by
          simp only [right_fork]
          rw [hbn]
        rw [hrn] at hE
        have hh := hall ((i + 1) % n) (Nat.mod_lt _ (by omega))
        rw [heq] at hh
        rw [hh] at hE
        exact absurd hE (by decide)
    | ret i hi he =>
      have hh := hall i (by rw [hbn] at hi; exact hi)
      rw [return_forks_phase_self] at hh
      exact absurd hh (by decide)

/-- Witness for claim C6: the trivially reachable initial state with
`N = 2` is not an all-WAITING state. -/
theorem claim_C6_no_global_stall_witness :
    ¬ (∀ i, i < 2 → (init 2).phase i = Phase.HUNGRY) :=
  claim_C6_no_global_stall 2 (by decide) (init 2) Relation.ReflTransGen.refl

/-- Claim C8 (confirmed): on the intended domain `N ≥ 2`, `count_forks(r)`
equals the spec's holder count of resource `r` — the number of ACTIVE
actors among the two adjacent actors `r` and `(r-1) mod N`.  (`count_forks`
is embedded as a pure function of the state: the Python method only reads
`self.state`.) -/
theorem claim_C8_count_forks_eq_spec (s : DiningPhilosophers) (r : Nat)
    (hn : 2 ≤ s.num_philosophers) (hr : r < s.num_philosophers) :
    count_forks s r = countHoldersSpec s r := by
  have hne : (r + s.num_philosophers - 1) % s.num_philosophers ≠ r :=
    prev_mod_ne s.num_philosophers r hn hr
  by_cases h1 : s.phase r = Phase.EATING <;>
    by_cases h2 : s.phase
      ((r + s.num_philosophers - 1) % s.num_philosophers) = Phase.EATING <;>
    simp [count_forks, countHoldersSpec, Finset.filter_insert,
      Finset.filter_singleton, h1, h2, Finset.card_insert_of_not_mem,
      hne, Ne.symm hne]

/-- Witness for claim C8 at `N = 3`, `state = [EATING, HUNGRY, HUNGRY]`,
`r = 0` (fork 0 is held once, by its left philosopher 0). -/
theorem claim_C8_count_forks_eq_spec_witness :
    2 ≤ (⟨3, [Phase.EATING, Phase.HUNGRY, Phase.HUNGRY], [1, 1, 0]⟩ :
        DiningPhilosophers).num_philosophers ∧
    0 < (⟨3, [Phase.EATING, Phase.HUNGRY, Phase.HUNGRY], [1, 1, 0]⟩ :
        DiningPhilosophers).num_philosophers ∧
    count_forks ⟨3, [Phase.EATING, Phase.HUNGRY, Phase.HUNGRY], [1, 1, 0]⟩ 0 =
      countHoldersSpec
        ⟨3, [Phase.EATING, Phase.HUNGRY, Phase.HUNGRY], [1, 1, 0]⟩ 0 :=
  ⟨by decide, by decide,
    claim_C8_count_forks_eq_spec
      ⟨3, [Phase.EATING, Phase.HUNGRY, Phase.HUNGRY], [1, 1, 0]⟩ 0
      (by decide) (by decide)⟩

/-- In a state where every phase reads `THINKING`, every holding count
is 0. -/
theorem count_forks_zero (s : DiningPhilosophers)
    (h : ∀ j, s.phase j = Phase.THINKING) (x : Nat) : count_forks s x = 0 := by
  simp [count_forks, h]

/-- From an all-IDLE state, `pickup_forks(i)` is granted immediately:
the guard sees `HUNGRY` for `i` and `THINKING` for `(i+1) mod N`. -/
theorem pickup_grant_all_thinking (s : DiningPhilosophers) (i : Nat)
    (hn : 2 ≤ s.num_philosophers) (hi : i < s.num_philosophers)
    (hlen : s.state.length = s.num_philosophers)
    (hall : ∀ j, s.phase j = Phase.THINKING) :
    (pickup_forks s i).phase i = Phase.EATING := by
  unfold pickup_forks
  apply test_phase_pos
  · refine ⟨?hH, ?hL, ?hR⟩
    case hH =>
      exact getD_set_self_of_lt _ _ _ _ (by rw [hlen]; exact hi)
    case hL =>
      simp only [left_fork]
      rw [show ({ s with state := s.state.set i Phase.HUNGRY } :
        DiningPhilosophers).phase i = Phase.HUNGRY from
        getD_set_self_of_lt _ _ _ _ (by rw [hlen]; exact hi)]
      decide
    case hR =>
      simp only [right_fork]
      have hne : (i + 1) % s.num_philosophers ≠ i :=
        succ_mod_ne s.num_philosophers i hn hi
      rw [show ({ s with state := s.state.set i Phase.HUNGRY } :
          DiningPhilosophers).phase ((i + 1) % s.num_philosophers) =
          s.phase ((i + 1) % s.num_philosophers) from
        getD_set_of_ne _ _ _ _ _ (fun hc => hne hc.symm)]
      rw [hall ((i + 1) % s.num_philosophers)]
      decide
  · simpa [hlen] using hi

theorem cycle_num (s : DiningPhilosophers) (i : Nat) :
    (cycle s i).num_philosophers = s.num_philosophers := by
  unfold cycle
  rw [return_num, pickup_num]

theorem cycle_length (s : DiningPhilosophers) (i : Nat) :
    (cycle s i).state.length = s.state.length := by
  unfold cycle
  rw [return_length, pickup_length]

/-- A full solo `acquire → release` cycle from an all-IDLE state returns
every phase to IDLE. -/
theorem cycle_all_thinking (s : DiningPhilosophers) (i : Nat)
    (hi : i < s.num_philosophers)
    (hlen : s.state.length = s.num_philosophers)
    (hall : ∀ j, s.phase j = Phase.THINKING) :
    ∀ j, (cycle s i).phase j = Phase.THINKING := by
  intro j
  unfold cycle
  by_cases hji : j = i
  · subst hji
    exact return_forks_phase_self _ j
  · have hpick : (pickup_forks s i).phase j = Phase.THINKING := by
      unfold pickup_forks
      rw [test_phase_keep _ _ _ (Or.inl hji)]
      exact (getD_set_of_ne _ _ _ _ _ (Ne.symm hji)).trans (hall j)
    rw [return_forks_phase_not_hungry (pickup_forks s i) i j hji
      (by rw [hpick]; decide)]
    exact hpick

/-- Invariant of the solo-cycling scenario: after any number of cycles the
monitor size is unchanged and every phase reads IDLE. -/
theorem cycleIter_inv (n i : Nat) (hn : 2 ≤ n) (hi : i < n) (k : Nat) :
    (cycleIter n i k).num_philosophers = n ∧
    (cycleIter n i k).state.length = n ∧
    ∀ j, (cycleIter n i k).phase j = Phase.THINKING := by
  induction k with
  | zero =>
    exact ⟨rfl, by simp [cycleIter, init], fun j => phase_init n j⟩
  | succ k ihk =>
    obtain ⟨h1, h2, h3⟩ := ihk
    refine ⟨?_, ?_, ?_⟩
    · show (cycle (cycleIter n i k) i).num_philosophers = n
      rw [cycle_num, h1]
    · show (cycle (cycleIter n i k) i).state.length = n
      rw [cycle_length, h2]
    · intro j
      exact cycle_all_thinking _ i (by rw [h1]; exact hi)
        (h2.trans h1.symm) h3 j

/-- Claim C9 (confirmed): with all other actors IDLE and inactive, after
any number `k` of completed solo `acquire → release` cycles of actor `i`,
every phase (in particular `phase[i]`) is IDLE, the next acquire is granted
immediately (each cycle's acquire completes), and the holding counts of
both of `i`'s adjacent resources `left(i) = i` and `right(i) = (i+1) mod N`
are 0. -/
theorem claim_C9_idempotent_reentry (n i : Nat) (hn : 2 ≤ n) (hi : i < n)
    (k : Nat) :
    (∀ j, j < n → (cycleIter n i k).phase j = Phase.THINKING) ∧
    (pickup_forks (cycleIter n i k) i).phase i = Phase.EATING ∧
    count_forks (cycleIter n i k) ((cycleIter n i k).left_fork i) = 0 ∧
    count_forks (cycleIter n i k) ((cycleIter n i k).right_fork i) = 0 := by
  obtain ⟨h1, h2, h3⟩ := cycleIter_inv n i hn hi k
  exact ⟨fun j _ => h3 j,
    pickup_grant_all_thinking _ i (by rw [h1]; exact hn) (by rw [h1]; exact hi)
      (h2.trans h1.symm) h3,
    count_forks_zero _ h3 _, count_forks_zero _ h3 _⟩

/-- Witness for claim C9 at `n = 5`, `i = 0`, `k = 2` cycles. -/
theorem claim_C9_idempotent_reentry_witness :
    (∀ j, j < 5 → (cycleIter 5 0 2).phase j = Phase.THINKING) ∧
    (pickup_forks (cycleIter 5 0 2) 0).phase 0 = Phase.EATING ∧
    count_forks (cycleIter 5 0 2) ((cycleIter 5 0 2).left_fork 0) = 0 ∧
    count_forks (cycleIter 5 0 2) ((cycleIter 5 0 2).right_fork 0) = 0 :=
  claim_C9_idempotent_reentry 5 0 (by decide) (by decide) 2

/-- Witness for claim C10: with `N = 3`, releasing actor 0 leaves its left
neighbour `(0+3-1) % 3 = 2` untouched. -/
theorem claim_C10_release_frame_witness :
    ((2 : Nat) ≠ 0) ∧
    ((2 : Nat) ≠ (0 + 1) % (⟨3, [Phase.EATING, Phase.HUNGRY, Phase.HUNGRY],
        [1, 1, 0]⟩ : DiningPhilosophers).num_philosophers) ∧
    (return_forks ⟨3, [Phase.EATING, Phase.HUNGRY, Phase.HUNGRY], [1, 1, 0]⟩
        0).phase 2 =
      (⟨3, [Phase.EATING, Phase.HUNGRY, Phase.HUNGRY], [1, 1, 0]⟩ :
        DiningPhilosophers).phase 2 :=
  ⟨by decide, by decide, claim_C10_release_frame _ 0 2 (by decide) (by decide)⟩

end DiningPhilosophers
